import Mathlib

set_option maxRecDepth 400000

/-!
Verification of the PatentChain hash-chain ledger engine.

A shallow embedding of the blockchain core of the repository
(`src/main.py` and `src/python.py`): block construction, SHA-256 content
hashing, proof-of-work mining, chain validation, the authenticity scorer
and the statistics aggregation, together with proofs of the specified
properties.

Machine words are modelled as `Nat` reduced modulo `2 ^ 32`; byte strings
as `List Nat`.  The Python `while` loop in `mine_block` is modelled with
explicit fuel, so mining returns an `Option Block`.
-/

/-! ## SHA-256 (as used via `hashlib.sha256(...).hexdigest()`) -/

/-- Truncate to a 32-bit word. -/
def w32 (n : Nat) : Nat := n % 4294967296

/-- Modular 32-bit addition. -/
def wadd (a b : Nat) : Nat := (a + b) % 4294967296

/-- Right rotation of a 32-bit word by `n` places. -/
def rotr (n a : Nat) : Nat := ((a >>> n) ||| (a <<< (32 - n))) % 4294967296

/-- Bitwise complement of a 32-bit word. -/
def wnot (a : Nat) : Nat := Nat.xor a 4294967295

/-- SHA-256 `Ch(e, f, g)`. -/
def shaCh (e f g : Nat) : Nat := Nat.xor (Nat.land e f) (Nat.land (wnot e) g)

/-- SHA-256 `Maj(a, b, c)`. -/
def shaMaj (a b c : Nat) : Nat :=
  Nat.xor (Nat.xor (Nat.land a b) (Nat.land a c)) (Nat.land b c)

/-- SHA-256 big sigma 0. -/
def bSig0 (a : Nat) : Nat := Nat.xor (Nat.xor (rotr 2 a) (rotr 13 a)) (rotr 22 a)

/-- SHA-256 big sigma 1. -/
def bSig1 (a : Nat) : Nat := Nat.xor (Nat.xor (rotr 6 a) (rotr 11 a)) (rotr 25 a)

/-- SHA-256 small sigma 0. -/
def sSig0 (a : Nat) : Nat := Nat.xor (Nat.xor (rotr 7 a) (rotr 18 a)) (a >>> 3)

/-- SHA-256 small sigma 1. -/
def sSig1 (a : Nat) : Nat := Nat.xor (Nat.xor (rotr 17 a) (rotr 19 a)) (a >>> 10)

/-- The 64 SHA-256 round constants. -/
def shaK : List Nat :=
  [1116352408, 1899447441, 3049323471, 3921009573, 961987163,
   1508970993, 2453635748, 2870763221, 3624381080, 310598401,
   607225278, 1426881987, 1925078388, 2162078206, 2614888103,
   3248222580, 3835390401, 4022224774, 264347078, 604807628,
   770255983, 1249150122, 1555081692, 1996064986, 2554220882,
   2821834349, 2952996808, 3210313671, 3336571891, 3584528711,
   113926993, 338241895, 666307205, 773529912, 1294757372,
   1396182291, 1695183700, 1986661051, 2177026350, 2456956037,
   2730485921, 2820302411, 3259730800, 3345764771, 3516065817,
   3600352804, 4094571909, 275423344, 430227734, 506948616,
   659060556, 883997877, 958139571, 1322822218, 1537002063,
   1747873779, 1955562222, 2024104815, 2227730452, 2361852424,
   2428436474, 2756734187, 3204031479, 3329325298]

/-- The SHA-256 initial hash state. -/
def shaH0 : Nat × Nat × Nat × Nat × Nat × Nat × Nat × Nat :=
  (1779033703, 3144134277, 1013904242, 2773480762,
   1359893119, 2600822924, 528734635, 1541459225)

/-- Group a list of bytes into big-endian 32-bit words (4 bytes per word). -/
def bytesToWords : List Nat → List Nat
  | b0 :: b1 :: b2 :: b3 :: rest =>
      (((b0 * 256 + b1) * 256 + b2) * 256 + b3) :: bytesToWords rest
  | _ => []

/-- Extend a reversed 16-word message block by `n` further schedule words,
returning the full schedule in order. -/
def shaSchedAux : Nat → List Nat → List Nat
  | 0, acc => acc.reverse
  | n + 1, acc =>
      let w := wadd (wadd (sSig1 (acc.getD 1 0)) (acc.getD 6 0))
                    (wadd (sSig0 (acc.getD 14 0)) (acc.getD 15 0))
      shaSchedAux n (w :: acc)

/-- The 64-entry message schedule of a 16-word block. -/
def shaSchedule (ws : List Nat) : List Nat := shaSchedAux 48 ws.reverse

/-- One SHA-256 compression round. -/
def shaRound (st : Nat × Nat × Nat × Nat × Nat × Nat × Nat × Nat)
    (kw : Nat × Nat) : Nat × Nat × Nat × Nat × Nat × Nat × Nat × Nat :=
  let (a, b, c, d, e, f, g, h) := st
  let t1 := wadd h (wadd (bSig1 e) (wadd (shaCh e f g) (wadd kw.1 kw.2)))
  let t2 := wadd (bSig0 a) (shaMaj a b c)
  (wadd t1 t2, a, b, c, wadd d t1, e, f, g)

/-- Compress one 16-word message block into the running hash state. -/
def shaCompress (st : Nat × Nat × Nat × Nat × Nat × Nat × Nat × Nat)
    (block : List Nat) : Nat × Nat × Nat × Nat × Nat × Nat × Nat × Nat :=
  let ws := shaSchedule block
  let (a, b, c, d, e, f, g, h) := (shaK.zip ws).foldl shaRound st
  let (a0, b0, c0, d0, e0, f0, g0, h0) := st
  (wadd a a0, wadd b b0, wadd c c0, wadd d d0,
   wadd e e0, wadd f f0, wadd g g0, wadd h h0)

/-- Big-endian bytes of a 64-bit length field. -/
def lenBytes8 (n : Nat) : List Nat :=
  [(n >>> 56) % 256, (n >>> 48) % 256, (n >>> 40) % 256, (n >>> 32) % 256,
   (n >>> 24) % 256, (n >>> 16) % 256, (n >>> 8) % 256, n % 256]

/-- SHA-256 message padding: a `0x80` byte, zeros to 56 mod 64, then the
bit length as a big-endian 64-bit integer. -/
def shaPad (msg : List Nat) : List Nat :=
  let len := msg.length
  let zeros := (64 - (len + 9) % 64) % 64
  msg ++ 128 :: List.replicate zeros 0 ++ lenBytes8 (len * 8)

/-- Split a byte list into 64-byte chunks (fueled; the fuel is ample). -/
def chunks64Aux : Nat → List Nat → List (List Nat)
  | 0, _ => []
  | _, [] => []
  | fuel + 1, l => l.take 64 :: chunks64Aux fuel (l.drop 64)

/-- Split a byte list into 64-byte chunks. -/
def chunks64 (l : List Nat) : List (List Nat) := chunks64Aux (l.length + 1) l

/-- The SHA-256 digest state of a byte message. -/
def sha256State (msg : List Nat) : Nat × Nat × Nat × Nat × Nat × Nat × Nat × Nat :=
  ((chunks64 (shaPad msg)).map bytesToWords).foldl shaCompress shaH0

/-- Hexadecimal digit characters (lowercase, as `hexdigest` produces). -/
def hexDigit (n : Nat) : Char :=
  if n < 10 then Char.ofNat (48 + n) else Char.ofNat (87 + n)

/-- Lowercase hexadecimal rendering of one 32-bit word (8 digits). -/
def wordHex (w : Nat) : List Char :=
  [hexDigit ((w >>> 28) % 16), hexDigit ((w >>> 24) % 16),
   hexDigit ((w >>> 20) % 16), hexDigit ((w >>> 16) % 16),
   hexDigit ((w >>> 12) % 16), hexDigit ((w >>> 8) % 16),
   hexDigit ((w >>> 4) % 16), hexDigit (w % 16)]

/-- The 64-character lowercase hex digest of a byte message, exactly as
`hashlib.sha256(msg).hexdigest()` renders it. -/
def sha256HexBytes (msg : List Nat) : String :=
  let (a, b, c, d, e, f, g, h) := sha256State msg
  String.mk (wordHex a ++ wordHex b ++ wordHex c ++ wordHex d ++
             wordHex e ++ wordHex f ++ wordHex g ++ wordHex h)

/-- UTF-8 encoding of one character (Python `str.encode()`). -/
def utf8Char (c : Char) : List Nat :=
  let n := c.toNat
  if n < 128 then [n]
  else if n < 2048 then [192 + n / 64, 128 + n % 64]
  else if n < 65536 then [224 + n / 4096, 128 + (n / 64) % 64, 128 + n % 64]
  else [240 + n / 262144, 128 + (n / 4096) % 64, 128 + (n / 64) % 64, 128 + n % 64]

/-- UTF-8 encoding of a string (Python `str.encode()`). -/
def utf8Bytes (s : String) : List Nat := s.data.flatMap utf8Char

/-- Computes `hashlib.sha256(s.encode()).hexdigest()`. -/
def sha256Hex (s : String) : String := sha256HexBytes (utf8Bytes s)

/-! ## Python values and the two payload serializations

`main.py` hashes `json.dumps(self.data, sort_keys=True)`; `python.py`
hashes `str(self.data)` (the Python `repr` of a dict, in insertion
order).  Payload dicts are modelled as insertion-ordered association
lists of `PyVal` values. -/

/-- A Python value as it occurs in the payload dicts of this app. -/
inductive PyVal where
  | str (s : String)
  | int (n : Int)
  | bool (b : Bool)
  | none
deriving DecidableEq

/-- A Python dict with string keys, in insertion order. -/
abbrev PyDict := List (String × PyVal)

/-- JSON string escaping as `json.dumps` performs it (for the ASCII
range this app produces; `ensure_ascii` only matters beyond it). -/
def jsonEscapeChar (c : Char) : List Char :=
  if c = '\\' then ['\\', '\\']
  else if c = '"' then ['\\', '"']
  else if c = Char.ofNat 10 then ['\\', 'n']
  else if c = Char.ofNat 9 then ['\\', 't']
  else if c = Char.ofNat 13 then ['\\', 'r']
  else if c.toNat < 32 then
    ['\\', 'u', '0', '0', hexDigit (c.toNat / 16), hexDigit (c.toNat % 16)]
  else [c]

/-- A JSON string literal: double-quoted with escapes. -/
def jsonStr (s : String) : String :=
  String.mk ('"' :: s.data.flatMap jsonEscapeChar ++ ['"'])

/-- The JSON rendering of a `PyVal` (as `json.dumps` renders it). -/
def PyVal.toJson : PyVal → String
  | .str s => jsonStr s
  | .int n => toString n
  | .bool b => if b then "true" else "false"
  | .none => "null"

/-- Python `repr` escaping inside a single-quoted string literal. -/
def pyReprEscapeChar (c : Char) : List Char :=
  if c = '\\' then ['\\', '\\']
  else if c = Char.ofNat 39 then ['\\', Char.ofNat 39]
  else if c = Char.ofNat 10 then ['\\', 'n']
  else if c = Char.ofNat 9 then ['\\', 't']
  else if c = Char.ofNat 13 then ['\\', 'r']
  else if c.toNat < 32 then ['\\', 'x', hexDigit (c.toNat / 16), hexDigit (c.toNat % 16)]
  else [c]

/-- Python `repr` of a string: single-quoted unless the string contains a
single quote and no double quote. -/
def pyStrRepr (s : String) : String :=
  if s.data.contains (Char.ofNat 39) && !(s.data.contains '"') then
    String.mk ('"' :: s.data.flatMap jsonEscapeChar ++ ['"'])
  else
    String.mk (Char.ofNat 39 :: s.data.flatMap pyReprEscapeChar ++ [Char.ofNat 39])

/-- Python `repr` of a `PyVal` (as `str(dict)` renders values). -/
def PyVal.toPyRepr : PyVal → String
  | .str s => pyStrRepr s
  | .int n => toString n
  | .bool b => if b then "True" else "False"
  | .none => "None"

/-- Code-point lexicographic comparison, as Python compares strings. -/
def charListLe : List Char → List Char → Bool
  | [], _ => true
  | _ :: _, [] => false
  | a :: as, b :: bs =>
      if a.toNat < b.toNat then true
      else if b.toNat < a.toNat then false
      else charListLe as bs

/-- String comparison `a <= b` by code points. -/
def strLe (a b : String) : Bool := charListLe a.data b.data

/-- Insert one key-value pair into a key-sorted association list. -/
def insertByKey (p : String × PyVal) : List (String × PyVal) → List (String × PyVal)
  | [] => [p]
  | q :: rest => if strLe p.1 q.1 then p :: q :: rest else q :: insertByKey p rest

/-- Sort an association list by key (Python `sort_keys=True`). -/
def sortByKey : List (String × PyVal) → List (String × PyVal)
  | [] => []
  | p :: rest => insertByKey p (sortByKey rest)

/-- Join rendered items with `", "` (the default `json.dumps`/`repr`
item separator). -/
def joinItems : List String → String
  | [] => ""
  | [x] => x
  | x :: rest => x ++ ", " ++ joinItems rest

/-- Renders `json.dumps(d, sort_keys=True)` for a string-keyed dict. -/
def json_dumps_sorted (d : PyDict) : String :=
  "\x7b" ++ joinItems ((sortByKey d).map fun kv => jsonStr kv.1 ++ ": " ++ kv.2.toJson) ++ "\x7d"

/-- Renders `str(d)` for a Python dict: `repr` items in insertion order. -/
def pyDictStr (d : PyDict) : String :=
  "\x7b" ++ joinItems (d.map fun kv => pyStrRepr kv.1 ++ ": " ++ kv.2.toPyRepr) ++ "\x7d"

/-! ## `main.py`: `Block` -/

/-- A block of the `main.py` blockchain (class `Block`, lines 19-49). -/
structure Block where
  index : Nat
  timestamp : String
  data : PyDict
  previous_hash : String
  nonce : Nat
  hash : String
  merkle_root : String
deriving DecidableEq

/-- Method `Block.calculate_hash` (`main.py` lines 29-37): SHA-256 over
`str(index) + str(timestamp) + json.dumps(data, sort_keys=True) +
str(previous_hash) + str(nonce)`. -/
def Block.calculate_hash (b : Block) : String :=
  sha256Hex (toString b.index ++ b.timestamp ++ json_dumps_sorted b.data ++
             b.previous_hash ++ toString b.nonce)

/-- Method `Block.calculate_merkle_root` (`main.py` lines 39-42). -/
def Block.calculate_merkle_root (b : Block) : String :=
  sha256Hex (json_dumps_sorted b.data)

/-- Constructor `Block.__init__` (`main.py` lines 20-27): stores the fields and
computes `hash` and `merkle_root` from them (Python default `nonce=0`
is passed explicitly at the call sites below). -/
def Block.new (index : Nat) (timestamp : String) (data : PyDict)
    (previous_hash : String) (nonce : Nat) : Block :=
  { index := index, timestamp := timestamp, data := data,
    previous_hash := previous_hash, nonce := nonce,
    hash := sha256Hex (toString index ++ timestamp ++ json_dumps_sorted data ++
                       previous_hash ++ toString nonce),
    merkle_root := sha256Hex (json_dumps_sorted data) }

/-- The mining target test `self.hash[:difficulty] == "0" * difficulty`
of `mine_block` (`main.py` lines 46-47). -/
def hashMeetsTarget (difficulty : Nat) (h : String) : Bool :=
  h.data.take difficulty == List.replicate difficulty '0'

/-- Method `Block.mine_block` (`main.py` lines 44-49): while the stored `hash`
does not meet the target, increment `nonce` and recompute `hash`.  The
unbounded Python `while` loop is given explicit fuel; `none` means the
loop was still running when the fuel ran out. -/
def mine_block (difficulty : Nat) : Nat → Block → Option Block
  | 0, b => if hashMeetsTarget difficulty b.hash then Option.some b else Option.none
  | fuel + 1, b =>
      if hashMeetsTarget difficulty b.hash then Option.some b
      else
        mine_block difficulty fuel
          { b with nonce := b.nonce + 1,
                   hash := Block.calculate_hash { b with nonce := b.nonce + 1 } }

/-! ## `main.py`: `Blockchain` -/

/-- A `main.py` `Blockchain` object with all its attributes assigned. -/
structure Blockchain where
  chain : List Block
  difficulty : Nat
  pending_transactions : List PyDict
  mining_reward : Nat

/-- The fixed genesis payload (`main.py` lines 62-72), in insertion
order. -/
def genesisData : PyDict :=
  [("title", .str "Genesis Block"),
   ("description", .str "First block in the patent blockchain"),
   ("doc_hash", .str ""),
   ("patent_type", .str "Genesis"),
   ("is_on_blockchain", .bool true),
   ("patent_id", .str "GENESIS-000"),
   ("inventor", .str "System"),
   ("status", .str "Active"),
   ("priority", .str "Normal")]

/-- Outcome of running a piece of Python code that can raise
`AttributeError` and whose loops are fueled. -/
inductive PyResult (α : Type) where
  | ok (val : α)
  | attributeError
  | fuelExhausted
deriving DecidableEq

/-- The attribute state of a `Blockchain` object: during `__init__` an
attribute is `none` until its assignment has executed, and reading it
then raises `AttributeError`. -/
structure BlockchainAttrs where
  difficulty : Option Nat

/-- Method `Blockchain.create_genesis_block` (`main.py` lines 58-76): build the
fixed genesis block at index 0 with `previous_hash="0"`, then mine it at
`self.difficulty` — reading that attribute raises `AttributeError` if it
has not been assigned yet.  `timestamp` stands for
`str(datetime.datetime.now())`. -/
def create_genesis_block (self : BlockchainAttrs) (timestamp : String)
    (fuel : Nat) : PyResult Block :=
  let genesis_block := Block.new 0 timestamp genesisData "0" 0
  match self.difficulty with
  | Option.none => .attributeError
  | Option.some d =>
      match mine_block d fuel genesis_block with
      | Option.some mined => .ok mined
      | Option.none => .fuelExhausted

/-- Constructor `Blockchain.__init__` (`main.py` lines 52-56): the first statement
calls `create_genesis_block` on a fresh object whose `difficulty`
attribute has not been assigned yet; the remaining assignments run only
if it returns. -/
def Blockchain.pyNew (timestamp : String) (fuel : Nat) : PyResult Blockchain :=
  match create_genesis_block { difficulty := Option.none } timestamp fuel with
  | .ok g =>
      .ok { chain := [g], difficulty := 2, pending_transactions := [], mining_reward := 100 }
  | .attributeError => .attributeError
  | .fuelExhausted => .fuelExhausted

/-- Method `Blockchain.get_latest_block` (`main.py` lines 78-79): `chain[-1]`,
an `IndexError` (`none`) on an empty chain. -/
def Blockchain.get_latest_block (bc : Blockchain) : Option Block :=
  bc.chain.getLast?

/-- Method `Blockchain.add_block` (`main.py` lines 81-84): set the candidate's
`previous_hash` to the latest block's `hash` (without recomputing the
candidate's stored `hash`), mine it at `self.difficulty`, and append. -/
def Blockchain.add_block (bc : Blockchain) (fuel : Nat) (new_block : Block) :
    Option Blockchain :=
  match bc.get_latest_block with
  | Option.none => Option.none
  | Option.some latest =>
      match mine_block bc.difficulty fuel { new_block with previous_hash := latest.hash } with
      | Option.some mined => Option.some { bc with chain := bc.chain ++ [mined] }
      | Option.none => Option.none

/-- The body of the validation loop of `is_chain_valid`: given the
previous block, check each later block's stored hash against its
recomputed hash and its `previous_hash` link, failing fast. -/
def chainValidFrom : Block → List Block → Bool
  | _, [] => true
  | prev, cur :: rest =>
      (cur.hash == cur.calculate_hash) && (cur.previous_hash == prev.hash) &&
        chainValidFrom cur rest

/-- Method `Blockchain.is_chain_valid` (`main.py` lines 86-96): for every index
from 1 on, the stored hash must equal the recomputed hash and the
`previous_hash` must equal the prior block's stored hash. -/
def Blockchain.is_chain_valid (bc : Blockchain) : Bool :=
  match bc.chain with
  | [] => true
  | g :: rest => chainValidFrom g rest

/-! ## `main.py`: authenticity scorer -/

/-- Function `verify_patent_authenticity` (`main.py` lines 135-155).  The call
site passes a dict with keys `title`, `description` and `doc_hash`; a
missing field behaves like the empty string under `.get(..., "")` and
truthiness.  `randadj` stands for the value `random.randint(-5, 15)`
returned by the random source on this call. -/
def verify_patent_authenticity (randadj : Int) (title description doc_hash : String) : Int :=
  let score : Int := 50
  let score := if 10 < title.length then score + 10 else score
  let score := if 50 < description.length then score + 15 else score
  let score := if doc_hash ≠ "" then score + 20 else score
  let score := score + randadj
  min 100 (max 0 score)

/-! ## `main.py`: the submit handler (lines 630-700, ledger effect)

The Streamlit submit handler validates the required fields, assembles
the payload dict and, for on-chain storage, constructs a `Block` with
`previous_hash=""` at index `len(chain)` and hands it to `add_block`.
Nondeterministic inputs (`uuid`, `random.randint`, `datetime.now`) are
parameters.  The returned value is the resulting ledger; the off-chain
list does not touch the ledger. -/

/-- Function `hash_file_bytes` (`main.py` lines 127-129). -/
def hash_file_bytes (file_bytes : List Nat) : String := sha256HexBytes file_bytes

/-- Python `str.isspace` characters relevant to `str.strip()`. -/
def isPySpace (c : Char) : Bool :=
  c = ' ' || c.toNat = 9 || c.toNat = 10 || c.toNat = 13 || c.toNat = 11 || c.toNat = 12

/-- Python `str.strip()`. -/
def pyStrip (s : String) : String :=
  String.mk (((s.data.dropWhile isPySpace).reverse.dropWhile isPySpace).reverse)

/-- The form fields read by the submit handler. -/
structure SubmitForm where
  patent_title : String
  inventor_name : String
  patent_description : String
  patent_type : String
  priority : String
  estimated_value : Int
  keywords : String
  related_patents : String
  collaboration : String
  funding_source : String
  store_on_chain : Bool
  uploaded_file : Option (String × List Nat)

/-- The ledger effect of the submit handler (`main.py` lines 630-700):
if a required field (title, inventor, description) is empty, an error is
shown and the ledger is untouched; otherwise the payload is assembled
and, for on-chain storage, appended via `add_block`.  `patent_id`,
`created_by`, `ts` and `randadj` stand for the generated UUID, the
session user, `str(datetime.datetime.now())` and `random.randint(-5, 15)`. -/
def submit_patent (bc : Blockchain) (form : SubmitForm)
    (patent_id created_by ts : String) (randadj : Int) (fuel : Nat) :
    Option Blockchain :=
  if form.patent_title = "" ∨ form.inventor_name = "" ∨ form.patent_description = "" then
    Option.some bc
  else
    let doc_hash :=
      match form.uploaded_file with
      | Option.some f => hash_file_bytes f.2
      | Option.none =>
          if pyStrip form.patent_description ≠ "" then sha256Hex form.patent_description else ""
    let patent_data : PyDict :=
      [("patent_id", .str patent_id),
       ("title", .str form.patent_title),
       ("description", .str form.patent_description),
       ("inventor", .str form.inventor_name),
       ("patent_type", .str form.patent_type),
       ("priority", .str form.priority),
       ("doc_hash", .str doc_hash),
       ("estimated_value", .int form.estimated_value),
       ("keywords", .str form.keywords),
       ("related_patents", .str form.related_patents),
       ("collaboration", .str form.collaboration),
       ("funding_source", .str form.funding_source),
       ("is_on_blockchain", .bool form.store_on_chain),
       ("status", .str "Pending"),
       ("verification_score",
        .int (verify_patent_authenticity randadj form.patent_title
                form.patent_description doc_hash)),
       ("created_by", .str created_by),
       ("file_name",
        match form.uploaded_file with
        | Option.some f => .str f.1
        | Option.none => .none),
       ("file_size",
        match form.uploaded_file with
        | Option.some f => .int (f.2.length : Int)
        | Option.none => .int 0)]
    if form.store_on_chain then
      bc.add_block fuel (Block.new bc.chain.length ts patent_data "" 0)
    else
      Option.some bc

/-! ## `python.py`: the naive `Block`

The second implementation hashes `str(index) + str(timestamp) +
str(data) + str(previous_hash)` — no nonce, and the payload rendered by
Python `repr` in insertion order rather than sorted-key JSON. -/

namespace Py

/-- A block of the `python.py` blockchain (class `Block`, lines 11-26). -/
structure Block where
  index : Nat
  timestamp : String
  data : PyDict
  previous_hash : String
  hash : String
deriving DecidableEq

/-- Method `Block.calculate_hash` (`python.py` lines 19-26). -/
def Block.calculate_hash (b : Block) : String :=
  sha256Hex (toString b.index ++ b.timestamp ++ pyDictStr b.data ++ b.previous_hash)

/-- Constructor `Block.__init__` (`python.py` lines 12-17). -/
def Block.new (index : Nat) (timestamp : String) (data : PyDict)
    (previous_hash : String) : Block :=
  { index := index, timestamp := timestamp, data := data,
    previous_hash := previous_hash,
    hash := sha256Hex (toString index ++ timestamp ++ pyDictStr data ++ previous_hash) }

end Py

/-! ## `main.py`: blockchain statistics (`get_blockchain_stats`)

Timestamps are parsed with `datetime.datetime.fromisoformat`; a naive
datetime is modelled by its offset in seconds (a rational, exact to the
microsecond) from the proleptic-Gregorian era, so that differences agree
with `timedelta.total_seconds()`. -/

/-- Split a character list at every occurrence of `sep`. -/
def splitOnChar (sep : Char) : List Char → List (List Char)
  | [] => [[]]
  | x :: rest =>
      let r := splitOnChar sep rest
      if x == sep then [] :: r
      else
        match r with
        | h :: t => (x :: h) :: t
        | [] => [[x]]

/-- Decimal value of a digit list, `none` on a non-digit. -/
def digitsValAux : List Char → Nat → Option Nat
  | [], acc => Option.some acc
  | c :: rest, acc =>
      if c.isDigit then digitsValAux rest (acc * 10 + (c.toNat - 48)) else Option.none

/-- Decimal value of a nonempty digit list. -/
def digitsVal (l : List Char) : Option Nat :=
  if l.isEmpty then Option.none else digitsValAux l 0

/-- Decimal value of a digit list of exactly the given length. -/
def parseFixed (l : List Char) (len : Nat) : Option Nat :=
  if l.length = len then digitsVal l else Option.none

/-- Gregorian leap-year test. -/
def isLeap (y : Nat) : Bool := (y % 4 = 0 && y % 100 ≠ 0) || y % 400 = 0

/-- Days in a month of the Gregorian calendar. -/
def daysInMonth (y m : Nat) : Nat :=
  if m = 2 then (if isLeap y then 29 else 28)
  else if m = 4 || m = 6 || m = 9 || m = 11 then 30
  else 31

/-- Day count of a Gregorian date from the era origin 0000-03-01
(valid for years from 1 on, which is all `datetime` can hold). -/
def daysFromCivil (y m d : Nat) : Nat :=
  let y' := if m ≤ 2 then y - 1 else y
  let era := y' / 400
  let yoe := y' % 400
  let mp := if 2 < m then m - 3 else m + 9
  let doy := (153 * mp + 2) / 5 + (d - 1)
  let doe := yoe * 365 + yoe / 4 - yoe / 100 + doy
  era * 146097 + doe

/-- Model of `datetime.datetime.fromisoformat` on the strings
`str(datetime.datetime.now())` produces (`YYYY-MM-DD HH:MM:SS[.ffffff]`):
the naive datetime as an exact offset in seconds from the era origin.
Malformed strings (a `ValueError` in Python) give `none`. -/
def fromisoformat (s : String) : Option Rat :=
  match splitOnChar ' ' s.data with
  | [datePart, timePart] =>
      (match splitOnChar '-' datePart, splitOnChar ':' timePart with
       | [ys, ms, ds], [hs, mins, secPart] =>
           (match parseFixed ys 4, parseFixed ms 2, parseFixed ds 2,
                  parseFixed hs 2, parseFixed mins 2 with
            | Option.some y, Option.some m, Option.some d,
              Option.some h, Option.some mi =>
                (match splitOnChar '.' secPart with
                 | [ss] =>
                     (match parseFixed ss 2 with
                      | Option.some sec =>
                          if 1 ≤ m ∧ m ≤ 12 ∧ 1 ≤ d ∧ d ≤ daysInMonth y m ∧
                             h < 24 ∧ mi < 60 ∧ sec < 60 then
                            Option.some
                              ((daysFromCivil y m d * 86400 + h * 3600 + mi * 60 + sec : Nat) : Rat)
                          else Option.none
                      | Option.none => Option.none)
                 | [ss, fs] =>
                     (match parseFixed ss 2, digitsVal fs with
                      | Option.some sec, Option.some frac =>
                          if 1 ≤ m ∧ m ≤ 12 ∧ 1 ≤ d ∧ d ≤ daysInMonth y m ∧
                             h < 24 ∧ mi < 60 ∧ sec < 60 ∧ 1 ≤ fs.length ∧ fs.length ≤ 6 then
                            Option.some
                              (((daysFromCivil y m d * 86400 + h * 3600 + mi * 60 + sec : Nat) : Rat) +
                                (frac : Rat) / ((10 ^ fs.length : Nat) : Rat))
                          else Option.none
                      | _, _ => Option.none)
                 | _ => Option.none)
            | _, _, _, _, _ => Option.none)
       | _, _ => Option.none)
  | _ => Option.none

/-- The fields of the dict returned by `get_blockchain_stats`
(`main.py` lines 224-242). -/
structure BlockchainStats where
  total_blocks : Nat
  total_patents : Int
  chain_valid : Bool
  average_block_time : Rat
  total_hash_power : Nat
  latest_block_hash : String

/-- Evaluate the list comprehension `[f(x) for x in l]` where each
element can raise (`none`): the whole comprehension raises if any
element does. -/
def traverseOption {α β : Type} (f : α → Option β) : List α → Option (List β)
  | [] => Option.some []
  | a :: rest =>
      match f a, traverseOption f rest with
      | Option.some b, Option.some bs => Option.some (b :: bs)
      | _, _ => Option.none

/-- Function `get_blockchain_stats` (`main.py` lines 224-242).  A timestamp parse
failure (a `ValueError` escaping the function) is `none`; parsing only
happens when the chain has more than one block. -/
def get_blockchain_stats (bc : Blockchain) : Option BlockchainStats :=
  let stats : BlockchainStats :=
    { total_blocks := bc.chain.length,
      total_patents := (bc.chain.length : Int) - 1,
      chain_valid := bc.is_chain_valid,
      average_block_time := 0,
      total_hash_power := (bc.chain.map Block.nonce).foldl (· + ·) 0,
      latest_block_hash :=
        match bc.chain.getLast? with
        | Option.some b => b.hash
        | Option.none => "N/A" }
  if 1 < bc.chain.length then
    match traverseOption (fun b => fromisoformat b.timestamp) (bc.chain.drop 1) with
    | Option.none => Option.none
    | Option.some timestamps =>
        if 1 < timestamps.length then
          let time_diffs := (timestamps.zip (timestamps.drop 1)).map fun p => p.2 - p.1
          Option.some
            { stats with
                average_block_time :=
                  time_diffs.foldl (· + ·) 0 / ((time_diffs.length : Nat) : Rat) }
        else Option.some stats
  else Option.some stats

/-! ## Concrete ledgers

Concrete runs of the code above, with timestamps (standing for the
nondeterministic `datetime.now()` values) chosen so that mining finds
its nonce quickly. -/

/-- A payload `{"title": "X"}`. -/
def dataX : PyDict := [("title", .str "X")]

/-- A payload `{"title": "Y"}`. -/
def dataY : PyDict := [("title", .str "Y")]

/-- A payload `{"title": "L"}`. -/
def dataL : PyDict := [("title", .str "L")]

/-- A structurally invalid record: empty title, description and inventor. -/
def dataInvalid : PyDict :=
  [("title", .str ""), ("description", .str ""), ("inventor", .str "")]

/-- The genesis block of the demo ledger: its construction hash already
meets the difficulty-2 target, so mining returns it at nonce 0. -/
def gBlock : Block := Block.new 0 "2025-06-01 12:00:00.000223" genesisData "0" 0

/-- The demo ledger holding only the mined genesis block, with the
attribute values `__init__` assigns. -/
def bcG : Blockchain :=
  { chain := [gBlock], difficulty := 2, pending_transactions := [], mining_reward := 100 }

/-- A candidate block as the submit handler constructs it
(`previous_hash=""`, nonce 0). -/
def blockA0 : Block := Block.new 1 "2025-06-01 12:01:00.000553" dataX "" 0

/-- The demo ledger after appending `blockA0` (mining succeeds at nonce 1). -/
def bcGA : Blockchain := (bcG.add_block 30 blockA0).getD bcG

/-- A second candidate block. -/
def blockB0 : Block := Block.new 2 "2025-06-01 12:02:00.000175" dataY "" 0

/-- The demo ledger after two appends. -/
def bcGAB : Blockchain := (bcGA.add_block 30 blockB0).getD bcGA

/-- A candidate whose construction hash (over `previous_hash=""`)
already starts with two zero hex digits. -/
def luckyBlock : Block := Block.new 1 "2025-06-01 12:03:00.001086" dataL "" 0

/-- The ledger produced by appending the lucky candidate. -/
def bcLucky : Blockchain := (bcG.add_block 30 luckyBlock).getD bcG

/-- A candidate carrying the structurally invalid record. -/
def invalidBlock : Block := Block.new 1 "2025-06-01 12:04:00.000118" dataInvalid "" 0

/-- The ledger produced by appending the invalid-record candidate. -/
def bcInvalid : Blockchain := (bcG.add_block 30 invalidBlock).getD bcG

/-- An unmined but hash-consistent genesis block. -/
def g6 : Block := Block.new 0 "2025-06-02 09:00:00.000000" dataX "0" 0

/-- An unmined but hash-consistent, correctly linked successor. -/
def b6 : Block := Block.new 1 "2025-06-02 09:00:05.000000" dataX g6.hash 0

/-- A hash-consistent, correctly linked chain none of whose blocks meets
the difficulty-2 target. -/
def bcUnmined : Blockchain :=
  { chain := [g6, b6], difficulty := 2, pending_transactions := [], mining_reward := 100 }

/-- Statistics demo chain: blocks 1 and 2 are ten seconds apart. -/
def s9b0 : Block := Block.new 0 "2026-01-01 00:00:00.000000" genesisData "0" 0

/-- First non-genesis statistics block (nonce 3). -/
def s9b1 : Block := Block.new 1 "2026-01-01 10:00:00" dataX "p" 3

/-- Second non-genesis statistics block (nonce 4), ten seconds later. -/
def s9b2 : Block := Block.new 2 "2026-01-01 10:00:10" dataX "q" 4

/-- The statistics demo ledger. -/
def bcStats : Blockchain :=
  { chain := [s9b0, s9b1, s9b2], difficulty := 2, pending_transactions := [], mining_reward := 100 }

/-- A dummy statistics record (the `getD` fallback below). -/
def statsDummy : BlockchainStats :=
  { total_blocks := 0, total_patents := 0, chain_valid := true,
    average_block_time := 0, total_hash_power := 0, latest_block_hash := "" }

/-- The statistics of the demo ledger. -/
def statsDemo : BlockchainStats := (get_blockchain_stats bcStats).getD statsDummy

/-- A `main.py` block for the cross-implementation comparison. -/
def c4Main : Block := Block.new 1 "2025-06-03 08:00:00.000000" dataX "abc" 0

/-- A `python.py` block with the same index, timestamp, payload and
`previous_hash` (and no nonce field to hold the shared nonce 0). -/
def c4Py : Py.Block := Py.Block.new 1 "2025-06-03 08:00:00.000000" dataX "abc"

/-- The parsed non-genesis timestamps of the statistics demo ledger. -/
def s9ts : List Rat :=
  (traverseOption (fun b => fromisoformat b.timestamp) (bcStats.chain.drop 1)).getD []

/-! ## Helper lemmas -/

/-- The validation loop succeeds iff every block is hash-consistent and
correctly linked to its predecessor (`prev` standing at index `-1`). -/
lemma chainValidFrom_iff :
    ∀ (l : List Block) (prev : Block),
      chainValidFrom prev l = true ↔
        ∀ (i : Nat) (h : i < l.length),
          (l.get ⟨i, h⟩).hash = (l.get ⟨i, h⟩).calculate_hash ∧
          (l.get ⟨i, h⟩).previous_hash =
            ((prev :: l).get ⟨i, Nat.lt_succ_of_lt h⟩).hash := by
  intro l
  induction l with
  | nil =>
      intro prev
      constructor
      · intro _ i h
        exact absurd h (Nat.not_lt_zero i)
      · intro _
        rfl
  | cons cur rest ih =>
      intro prev
      simp only [chainValidFrom, Bool.and_eq_true, beq_iff_eq, ih cur]
      constructor
      · rintro ⟨⟨hc, hl⟩, hrest⟩ i h
        cases i with
        | zero => exact ⟨hc, hl⟩
        | succ j => exact hrest j (Nat.lt_of_succ_lt_succ h)
      · intro H
        exact ⟨⟨(H 0 (Nat.succ_pos _)).1, (H 0 (Nat.succ_pos _)).2⟩,
               fun j hj => H (j + 1) (Nat.succ_lt_succ hj)⟩

/-- Indexed characterization of `is_chain_valid`. -/
lemma is_chain_valid_iff (bc : Blockchain) :
    bc.is_chain_valid = true ↔
      ∀ (i : Nat) (h : i + 1 < bc.chain.length),
        (bc.chain.get ⟨i + 1, h⟩).hash = (bc.chain.get ⟨i + 1, h⟩).calculate_hash ∧
        (bc.chain.get ⟨i + 1, h⟩).previous_hash =
          (bc.chain.get ⟨i, Nat.lt_of_succ_lt h⟩).hash := by
  obtain ⟨chain, difficulty, pt, mr⟩ := bc
  cases chain with
  | nil =>
      constructor
      · intro _ i h
        exact absurd h (Nat.not_lt_zero (i + 1))
      · intro _
        rfl
  | cons g rest =>
      show chainValidFrom g rest = true ↔ _
      rw [chainValidFrom_iff rest g]
      constructor
      · intro H i h
        exact H i (Nat.lt_of_succ_lt_succ h)
      · intro H i h
        exact H i (Nat.succ_lt_succ h)

/-- Appending a hash-consistent block linked to the last block preserves
the validation loop. -/
lemma chainValidFrom_append :
    ∀ (l : List Block) (prev b latest : Block),
      (prev :: l).getLast? = Option.some latest →
      chainValidFrom prev l = true →
      b.hash = b.calculate_hash →
      b.previous_hash = latest.hash →
      chainValidFrom prev (l ++ [b]) = true := by
  intro l
  induction l with
  | nil =>
      intro prev b latest hlast hvalid hc hl
      have hp : latest = prev := by
        simpa using hlast.symm
      subst hp
      simp [chainValidFrom, hc, hl]
  | cons cur rest ih =>
      intro prev b latest hlast hvalid hc hl
      simp only [chainValidFrom, Bool.and_eq_true, beq_iff_eq] at hvalid ⊢
      refine ⟨⟨hvalid.1.1, hvalid.1.2⟩, ?_⟩
      exact ih cur b latest (by rw [List.getLast?_cons_cons] at hlast; exact hlast)
        hvalid.2 hc hl

/-- Mining returns only blocks meeting the difficulty target. -/
lemma mine_block_meets {difficulty : Nat} :
    ∀ (fuel : Nat) (b b' : Block), mine_block difficulty fuel b = Option.some b' →
      hashMeetsTarget difficulty b'.hash = true := by
  intro fuel
  induction fuel with
  | zero =>
      intro b b' h
      unfold mine_block at h
      split at h
      · cases h
        assumption
      · exact Option.noConfusion h
  | succ n ih =>
      intro b b' h
      unfold mine_block at h
      split at h
      · cases h
        assumption
      · exact ih _ _ h

/-- Mining never touches the index, timestamp, payload or
`previous_hash`, and only increases the nonce. -/
lemma mine_block_fields {difficulty : Nat} :
    ∀ (fuel : Nat) (b b' : Block), mine_block difficulty fuel b = Option.some b' →
      b'.index = b.index ∧ b'.timestamp = b.timestamp ∧ b'.data = b.data ∧
      b'.previous_hash = b.previous_hash ∧ b.nonce ≤ b'.nonce := by
  intro fuel
  induction fuel with
  | zero =>
      intro b b' h
      unfold mine_block at h
      split at h
      · cases h
        exact ⟨rfl, rfl, rfl, rfl, Nat.le_refl _⟩
      · exact Option.noConfusion h
  | succ n ih =>
      intro b b' h
      unfold mine_block at h
      split at h
      · cases h
        exact ⟨rfl, rfl, rfl, rfl, Nat.le_refl _⟩
      · obtain ⟨h1, h2, h3, h4, h5⟩ := ih _ _ h
        exact ⟨h1, h2, h3, h4, Nat.le_trans (Nat.le_succ _) h5⟩

/-- The function `calculate_hash` reads only the five content fields, never the
stored `hash` or `merkle_root`. -/
lemma calculate_hash_fields_only (i : Nat) (t : String) (d : PyDict) (p : String)
    (n : Nat) (h1 h2 m1 m2 : String) :
    Block.calculate_hash (Block.mk i t d p n h1 m1) =
      Block.calculate_hash (Block.mk i t d p n h2 m2) := by
  unfold Block.calculate_hash
  rfl

/-- After one loop iteration the stored hash is the recomputed hash of
the block's fields (`calculate_hash` never reads the `hash` field). -/
lemma mine_step_consistent (b : Block) :
    ({ b with nonce := b.nonce + 1,
              hash := Block.calculate_hash { b with nonce := b.nonce + 1 } } : Block).hash =
    ({ b with nonce := b.nonce + 1,
              hash := Block.calculate_hash { b with nonce := b.nonce + 1 } } : Block).calculate_hash := by
  cases b with
  | mk i t d p n h m => simp only [Block.calculate_hash]

/-- A block that is hash-consistent on entry, or whose stored hash does
not yet meet the target, is hash-consistent when mining returns. -/
lemma mine_block_consistent {difficulty : Nat} :
    ∀ (fuel : Nat) (b b' : Block), mine_block difficulty fuel b = Option.some b' →
      (b.hash = b.calculate_hash ∨ hashMeetsTarget difficulty b.hash = false) →
      b'.hash = b'.calculate_hash := by
  intro fuel
  induction fuel with
  | zero =>
      intro b b' h hd
      unfold mine_block at h
      split at h
      next hmt =>
        cases h
        cases hd with
        | inl hc => exact hc
        | inr hf => rw [hmt] at hf; exact Bool.noConfusion hf
      next => exact Option.noConfusion h
  | succ n ih =>
      intro b b' h hd
      unfold mine_block at h
      split at h
      next hmt =>
        cases h
        cases hd with
        | inl hc => exact hc
        | inr hf => rw [hmt] at hf; exact Bool.noConfusion hf
      next => exact ih _ _ h (Or.inl (mine_step_consistent b))

/-- If the stored hash already meets the target, the mining loop exits
at once, returning the block as it stands. -/
lemma mine_block_of_meets {difficulty fuel : Nat} {b : Block}
    (h : hashMeetsTarget difficulty b.hash = true) :
    mine_block difficulty fuel b = Option.some b := by
  cases fuel <;> simp [mine_block, h]

/-- Anatomy of a successful `add_block` call. -/
lemma add_block_eq_some {bc bc' : Blockchain} {fuel : Nat} {b : Block}
    (h : bc.add_block fuel b = Option.some bc') :
    ∃ latest mined,
      bc.chain.getLast? = Option.some latest ∧
      mine_block bc.difficulty fuel { b with previous_hash := latest.hash } =
        Option.some mined ∧
      bc' = { bc with chain := bc.chain ++ [mined] } := by
  cases hl : bc.chain.getLast? with
  | none =>
      simp [Blockchain.add_block, Blockchain.get_latest_block, hl] at h
  | some latest =>
      cases hm : mine_block bc.difficulty fuel { b with previous_hash := latest.hash } with
      | none =>
          simp [Blockchain.add_block, Blockchain.get_latest_block, hl, hm] at h
      | some mined =>
          refine ⟨latest, mined, rfl, hm, ?_⟩
          simp [Blockchain.add_block, Blockchain.get_latest_block, hl, hm] at h
          exact h.symm

/-- The map `traverseOption` preserves length. -/
lemma traverseOption_length {α β : Type} (f : α → Option β) :
    ∀ (l : List α) (ts : List β), traverseOption f l = Option.some ts → ts.length = l.length := by
  intro l
  induction l with
  | nil =>
      intro ts h
      simp only [traverseOption, Option.some.injEq] at h
      subst h
      rfl
  | cons a rest ih =>
      intro ts h
      unfold traverseOption at h
      cases hf : f a with
      | none => rw [hf] at h; exact Option.noConfusion h
      | some b =>
          rw [hf] at h
          cases hr : traverseOption f rest with
          | none => rw [hr] at h; exact Option.noConfusion h
          | some bs =>
              rw [hr] at h
              cases h
              simp [ih bs hr]

/-- Characterization of `is_chain_valid`, phrased over the chain list. -/
lemma is_chain_valid_mk_iff (l : List Block) (d : Nat) (pt : List PyDict) (mr : Nat) :
    Blockchain.is_chain_valid ⟨l, d, pt, mr⟩ = true ↔
      ∀ (i : Nat) (h : i + 1 < l.length),
        (l.get ⟨i + 1, h⟩).hash = (l.get ⟨i + 1, h⟩).calculate_hash ∧
        (l.get ⟨i + 1, h⟩).previous_hash = (l.get ⟨i, Nat.lt_of_succ_lt h⟩).hash :=
  is_chain_valid_iff ⟨l, d, pt, mr⟩

/-- Left fold of addition from zero is the list sum. -/
lemma foldl_add_eq_sum {M : Type} [AddCommMonoid M] :
    ∀ (l : List M) (a : M), l.foldl (· + ·) a = a + l.sum := by
  intro l
  induction l with
  | nil =>
      intro a
      simp
  | cons b rest ih =>
      intro a
      simp only [List.foldl_cons, List.sum_cons, ih (a + b)]
      rw [add_assoc]

/-- The block produced by mining `blockA0` against the genesis block, as
`add_block` does. -/
def blockA : Block := (mine_block 2 30 { blockA0 with previous_hash := gBlock.hash }).getD blockA0

/-! ## Claims -/

/-- Claim C1. The claim states that constructing a Ledger (`Blockchain()`)
succeeds and yields a mined genesis chain.  In the code,
`Blockchain.__init__` runs `self.chain = [self.create_genesis_block()]`
before `self.difficulty = 2`, and `create_genesis_block` reads
`self.difficulty`, so every construction raises `AttributeError`
instead: the attribute-faithful model of `__init__` returns
`attributeError` for every timestamp and fuel. -/
theorem blockchain_init_raises_attribute_error :
    ∀ (timestamp : String) (fuel : Nat),
      Blockchain.pyNew timestamp fuel = PyResult.attributeError := by
  intro timestamp fuel
  rfl

/-- Claim C6. `is_valid()` returns true iff every block from index 1 on
has its stored hash equal to the recomputed hash of its current fields
and its `previous_hash` equal to the prior block's stored hash; chains
with zero or one block always validate true; and proof-of-work is never
re-checked: `bcUnmined` validates true although its block at index 1
fails the difficulty-2 leading-zeros target. -/
theorem is_valid_characterization :
    (∀ bc : Blockchain,
        bc.is_chain_valid = true ↔
          ∀ (i : Nat) (h : i + 1 < bc.chain.length),
            (bc.chain.get ⟨i + 1, h⟩).hash = (bc.chain.get ⟨i + 1, h⟩).calculate_hash ∧
            (bc.chain.get ⟨i + 1, h⟩).previous_hash =
              (bc.chain.get ⟨i, Nat.lt_of_succ_lt h⟩).hash) ∧
    (∀ bc : Blockchain, bc.chain.length ≤ 1 → bc.is_chain_valid = true) ∧
    (bcUnmined.is_chain_valid = true ∧ bcUnmined.chain.getD 1 g6 = b6 ∧
      hashMeetsTarget bcUnmined.difficulty b6.hash = false) := by
  refine ⟨is_chain_valid_iff, ?_, ?_, ?_, ?_⟩
  · intro bc hlen
    obtain ⟨chain, d, pt, mr⟩ := bc
    cases chain with
    | nil => rfl
    | cons g rest =>
        simp only [List.length_cons] at hlen
        have h0 : rest = [] := List.length_eq_zero.mp (by omega)
        subst h0
        rfl
  · rfl
  · rfl
  · rfl

/-- Claim C6 witness: the genesis-only ledger has at most one block and
validates true; the unmined consistent chain validates true. -/
theorem is_valid_characterization_witness :
    bcG.is_chain_valid = true ∧ bcUnmined.is_chain_valid = true :=
  ⟨is_valid_characterization.2.1 bcG (by decide), is_valid_characterization.2.2.1⟩

/-- Claim C2, amended.  For blocks at index 1 onward, tampering is
detected: replacing the block at index `i + 1` by any block whose
recomputed hash differs from its stored hash (which a field mutation
guarantees short of a SHA-256 collision), or whose `previous_hash`
differs from the prior block's stored hash, makes `is_valid()` return
false.  (Mutations of the genesis block at index 0 are not detected —
see the counterexample.) -/
theorem tamper_detection_amended :
    ∀ (bc : Blockchain) (i : Nat) (h : i + 1 < bc.chain.length) (b' : Block),
      (b'.calculate_hash ≠ b'.hash →
        Blockchain.is_chain_valid { bc with chain := bc.chain.set (i + 1) b' } = false) ∧
      (b'.previous_hash ≠ (bc.chain.get ⟨i, Nat.lt_of_succ_lt h⟩).hash →
        Blockchain.is_chain_valid { bc with chain := bc.chain.set (i + 1) b' } = false) := by
  intro bc i h b'
  have hlen : i + 1 < (bc.chain.set (i + 1) b').length := by
    rw [List.length_set]
    exact h
  have hget : (bc.chain.set (i + 1) b').get ⟨i + 1, hlen⟩ = b' := by
    rw [List.get_eq_getElem]
    exact List.getElem_set_self hlen
  have hgetprev : (bc.chain.set (i + 1) b').get ⟨i, Nat.lt_of_succ_lt hlen⟩ =
      bc.chain.get ⟨i, Nat.lt_of_succ_lt h⟩ := by
    rw [List.get_eq_getElem, List.get_eq_getElem]
    exact @List.getElem_set_ne Block bc.chain (i + 1) i (by omega) b' (Nat.lt_of_succ_lt hlen)
  constructor
  · intro hne
    cases hb : Blockchain.is_chain_valid { bc with chain := bc.chain.set (i + 1) b' } with
    | false => rfl
    | true =>
        exfalso
        have H := (is_chain_valid_mk_iff _ _ _ _).mp hb i hlen
        rw [hget] at H
        exact hne H.1.symm
  · intro hne
    cases hb : Blockchain.is_chain_valid { bc with chain := bc.chain.set (i + 1) b' } with
    | false => rfl
    | true =>
        exfalso
        have H := (is_chain_valid_mk_iff _ _ _ _).mp hb i hlen
        rw [hget, hgetprev] at H
        exact hne H.2

/-- Claim C2, counterexample.  The claim states that mutating any field
of any sealed block is detected; but the validation loop starts at
index 1, so mutating the genesis block's timestamp (without recomputing
its stored hash) leaves `is_valid()` true on this concrete two-block
chain built by genesis creation and one append. -/
theorem tamper_detection_genesis_counterexample :
    Blockchain.is_chain_valid
        { bcGA with
            chain := bcGA.chain.set 0 { gBlock with timestamp := "1999-01-01 00:00:00.000000" } } =
      true ∧
    ({ gBlock with timestamp := "1999-01-01 00:00:00.000000" } : Block).timestamp ≠
      gBlock.timestamp := by
  constructor
  · rfl
  · decide

/-- Claim C2 witness: on the concrete chain, a nonce mutation at index 1
(stored hash kept) and a `previous_hash` mutation at index 1 are both
detected. -/
theorem tamper_detection_amended_witness :
    Blockchain.is_chain_valid
        { bcGA with chain := bcGA.chain.set (0 + 1) { blockA with nonce := 5 } } = false ∧
    Blockchain.is_chain_valid
        { bcGA with chain := bcGA.chain.set (0 + 1) { blockA with previous_hash := "tampered" } } =
      false := by
  constructor
  · exact (tamper_detection_amended bcGA 0 (by decide) _).1 (by decide)
  · exact (tamper_detection_amended bcGA 0 (by decide) _).2 (by decide)

/-- Claim C5, amended.  After genesis creation (with `difficulty`
assigned) a one-block ledger validates true.  Every successful
`add_block` extends the chain by exactly one block and seals the
appended block with `previous_hash` equal to the pre-append latest
block's hash; the appended ledger validates true provided the
candidate's stored hash did not already meet the difficulty target when
mining began (otherwise the mining loop exits without recomputing the
stale hash — see the counterexample). -/
theorem append_preserves_validity_amended :
    (∀ (timestamp : String) (fuel : Nat) (g : Block),
        create_genesis_block { difficulty := Option.some 2 } timestamp fuel = PyResult.ok g →
        Blockchain.is_chain_valid
          { chain := [g], difficulty := 2, pending_transactions := [], mining_reward := 100 } =
          true) ∧
    (∀ (bc bc' : Blockchain) (fuel : Nat) (b : Block),
        bc.add_block fuel b = Option.some bc' →
        bc'.chain.length = bc.chain.length + 1 ∧
        ∃ latest mined,
          bc.chain.getLast? = Option.some latest ∧
          bc'.chain = bc.chain ++ [mined] ∧
          mined.previous_hash = latest.hash ∧
          (bc.is_chain_valid = true → hashMeetsTarget bc.difficulty b.hash = false →
            bc'.is_chain_valid = true)) := by
  constructor
  · intro ts fuel g _
    rfl
  · intro bc bc' fuel b h
    obtain ⟨chain, d, pt, mr⟩ := bc
    obtain ⟨latest, mined, hl, hm, rfl⟩ := add_block_eq_some h
    refine ⟨by simp, latest, mined, hl, rfl,
            (mine_block_fields fuel _ mined hm).2.2.2.1, ?_⟩
    intro hv ht
    have hcons : mined.hash = mined.calculate_hash :=
      mine_block_consistent fuel _ mined hm (Or.inr ht)
    have hprev : mined.previous_hash = latest.hash :=
      (mine_block_fields fuel _ mined hm).2.2.2.1
    cases chain with
    | nil => simp at hl
    | cons g rest =>
        show chainValidFrom g (rest ++ [mined]) = true
        exact chainValidFrom_append rest g mined latest hl hv hcons hprev

/-- Claim C5 witness: on the concrete ledger of difficulty 2, two appends
give a chain of length 3 that validates true. -/
theorem append_preserves_validity_witness :
    bcGA.chain.length = 2 ∧ bcGA.is_chain_valid = true ∧
    bcGAB.chain.length = 3 ∧ bcGAB.is_chain_valid = true := by
  have h1 := append_preserves_validity_amended.2 bcG bcGA 30 blockA0 (by rfl)
  have h2 := append_preserves_validity_amended.2 bcGA bcGAB 30 blockB0 (by rfl)
  obtain ⟨hlen1, l1, m1, hlast1, hchain1, hprev1, hv1⟩ := h1
  obtain ⟨hlen2, l2, m2, hlast2, hchain2, hprev2, hv2⟩ := h2
  have hA : bcGA.is_chain_valid = true := hv1 (by rfl) (by decide)
  exact ⟨by rw [hlen1]; rfl, hA, by rw [hlen2, hlen1]; rfl, hv2 hA (by decide)⟩

/-- Claim C5, counterexample.  The claim states `is_valid()` is true
after every append; but a candidate whose construction hash (computed
over `previous_hash=""`) happens to meet the difficulty target is
sealed without recomputation: `add_block` relinks it, the mining loop
exits at once on the stale hash, and the resulting ledger fails
validation. -/
theorem append_stale_lucky_hash_counterexample :
    hashMeetsTarget bcG.difficulty luckyBlock.hash = true ∧
    bcG.add_block 30 luckyBlock = Option.some bcLucky ∧
    bcLucky.is_chain_valid = false := by
  refine ⟨rfl, rfl, rfl⟩

/-- Claim C7, amended.  Whenever `mine_block` returns, the stored hash
meets the difficulty target (first `d` hex digits `'0'`), the nonce has
only been incremented and no other content field touched, and the
stored hash equals the recomputed hash of the block's current fields
provided the loop ran at least one iteration (entry hash not meeting
the target) or the entry hash was already consistent.  If the entry
hash already meets the target, the block is returned unchanged, stale
hash and all — see the counterexample. -/
theorem mine_postcondition_amended :
    ∀ (difficulty fuel : Nat) (b b' : Block),
      mine_block difficulty fuel b = Option.some b' →
      hashMeetsTarget difficulty b'.hash = true ∧
      (hashMeetsTarget difficulty b.hash = false → b'.hash = b'.calculate_hash) ∧
      (b.hash = b.calculate_hash → b'.hash = b'.calculate_hash) ∧
      (hashMeetsTarget difficulty b.hash = true → b' = b) ∧
      b'.index = b.index ∧ b'.timestamp = b.timestamp ∧ b'.data = b.data ∧
      b'.previous_hash = b.previous_hash ∧ b.nonce ≤ b'.nonce := by
  intro difficulty fuel b b' h
  obtain ⟨h1, h2, h3, h4, h5⟩ := mine_block_fields fuel b b' h
  refine ⟨mine_block_meets fuel b b' h,
          fun hf => mine_block_consistent fuel b b' h (Or.inr hf),
          fun hc => mine_block_consistent fuel b b' h (Or.inl hc),
          fun hm => ?_, h1, h2, h3, h4, h5⟩
  have hb := @mine_block_of_meets difficulty fuel b hm
  rw [h] at hb
  exact Option.some.inj hb

/-- Claim C7 witness: mining the relinked candidate `blockA0` returns a
block meeting the target whose hash equals its recomputed hash. -/
theorem mine_postcondition_witness :
    hashMeetsTarget 2 blockA.hash = true ∧ blockA.hash = blockA.calculate_hash := by
  have H := mine_postcondition_amended 2 30
    { blockA0 with previous_hash := gBlock.hash } blockA (by rfl)
  exact ⟨H.1, H.2.1 (by decide)⟩

/-- Claim C7, counterexample.  The claim states the returned hash always
equals the recomputed hash of the block's current fields; but on a
block whose stale stored hash (computed before `previous_hash` was
reassigned) already meets the target, `mine_block` returns immediately
and the stored hash differs from the recomputed hash. -/
theorem mine_stale_hash_counterexample :
    mine_block 2 30 { luckyBlock with previous_hash := gBlock.hash } =
      Option.some { luckyBlock with previous_hash := gBlock.hash } ∧
    hashMeetsTarget 2 ({ luckyBlock with previous_hash := gBlock.hash } : Block).hash = true ∧
    ({ luckyBlock with previous_hash := gBlock.hash } : Block).hash ≠
      ({ luckyBlock with previous_hash := gBlock.hash } : Block).calculate_hash := by
  refine ⟨rfl, rfl, by decide⟩

/-- Claim C3, amended.  `add_block` itself performs no validation (see
the counterexample); the rejection of records with empty title,
inventor or description happens in the caller, `main`'s submit handler,
which shows an error and leaves the ledger unchanged before any block
is constructed or hashed. -/
theorem submit_rejects_missing_fields_amended :
    ∀ (bc : Blockchain) (form : SubmitForm) (patent_id created_by ts : String)
      (randadj : Int) (fuel : Nat),
      form.patent_title = "" ∨ form.inventor_name = "" ∨ form.patent_description = "" →
      submit_patent bc form patent_id created_by ts randadj fuel = Option.some bc := by
  intro bc form pid cb ts r fuel hempty
  unfold submit_patent
  rw [if_pos hempty]

/-- A submit form with the required title left empty. -/
def formNoTitle : SubmitForm :=
  { patent_title := "", inventor_name := "demo_user", patent_description := "A description",
    patent_type := "Utility Patent", priority := "Normal", estimated_value := 10000,
    keywords := "", related_patents := "", collaboration := "", funding_source := "",
    store_on_chain := true, uploaded_file := Option.none }

/-- Claim C3 witness: submitting a form with an empty title leaves the
concrete ledger unchanged. -/
theorem submit_rejects_missing_fields_witness :
    submit_patent bcG formNoTitle "PAT-12345678" "demo_user"
      "2025-06-01 12:05:00.000000" 5 30 = Option.some bcG :=
  submit_rejects_missing_fields_amended bcG formNoTitle "PAT-12345678" "demo_user"
    "2025-06-01 12:05:00.000000" 5 30 (Or.inl rfl)

/-- Claim C3, counterexample.  The claim states the engine's append
operation raises on a Record missing title/description/inventor and
leaves the chain unchanged; but `add_block` validates nothing: it
mines and appends a block whose payload has all three required fields
empty, extending the chain. -/
theorem add_block_accepts_invalid_record_counterexample :
    invalidBlock.data = dataInvalid ∧
    bcG.add_block 30 invalidBlock = Option.some bcInvalid ∧
    bcInvalid.chain.length = bcG.chain.length + 1 := by
  refine ⟨rfl, rfl, rfl⟩

/-- Claim C4, amended.  Within each implementation, `calculate_hash` is
a deterministic 64-hex-character function of the content fields (it
ignores the stored `hash`/`merkle_root`); but the two implementations
disagree: `python.py` omits the nonce and serializes the payload with
Python `repr` instead of sorted-key JSON, so blocks with identical
index, timestamp, payload, previous_hash and nonce yield different
digests, as the concrete pair shows. -/
theorem hash_reproducibility_amended :
    (∀ b b' : Block, b.index = b'.index → b.timestamp = b'.timestamp →
        b.data = b'.data → b.previous_hash = b'.previous_hash → b.nonce = b'.nonce →
        b.calculate_hash = b'.calculate_hash) ∧
    (∀ p p' : Py.Block, p.index = p'.index → p.timestamp = p'.timestamp →
        p.data = p'.data → p.previous_hash = p'.previous_hash →
        p.calculate_hash = p'.calculate_hash) ∧
    (c4Main.index = c4Py.index ∧ c4Main.timestamp = c4Py.timestamp ∧
      c4Main.data = c4Py.data ∧ c4Main.previous_hash = c4Py.previous_hash ∧
      c4Main.nonce = 0 ∧
      c4Main.calculate_hash.length = 64 ∧ c4Py.calculate_hash.length = 64 ∧
      c4Main.calculate_hash ≠ c4Py.calculate_hash) := by
  refine ⟨?_, ?_, rfl, rfl, rfl, rfl, rfl, by decide, by decide, by decide⟩
  · intro b b' h1 h2 h3 h4 h5
    unfold Block.calculate_hash
    rw [h1, h2, h3, h4, h5]
  · intro p p' h1 h2 h3 h4
    unfold Py.Block.calculate_hash
    rw [h1, h2, h3, h4]

/-- Claim C4 witness: determinism applied to concrete field-equal blocks
of each implementation. -/
theorem hash_reproducibility_witness :
    (Block.new 1 "t" dataX "p" 7).calculate_hash =
      ({ Block.new 1 "t" dataX "p" 7 with merkle_root := "m" } : Block).calculate_hash ∧
    (Py.Block.new 1 "t" dataX "p").calculate_hash =
      ({ Py.Block.new 1 "t" dataX "p" with hash := "z" } : Py.Block).calculate_hash :=
  ⟨hash_reproducibility_amended.1 _ _ rfl rfl rfl rfl rfl,
   hash_reproducibility_amended.2.1 _ _ rfl rfl rfl rfl⟩

/-- Claim C4, counterexample.  The claim states the two implementations
produce the same hex string on identical fields; these concrete blocks
share index, timestamp, payload and previous_hash (and `c4Main` has
nonce 0, the value `python.py` has no field for), yet the digests
differ. -/
theorem cross_implementation_hash_counterexample :
    c4Main.index = c4Py.index ∧ c4Main.timestamp = c4Py.timestamp ∧
    c4Main.data = c4Py.data ∧ c4Main.previous_hash = c4Py.previous_hash ∧
    c4Main.nonce = 0 ∧
    c4Main.calculate_hash ≠ c4Py.calculate_hash :=
  ⟨rfl, rfl, rfl, rfl, rfl, by decide⟩

/-- Claim C8. For any record and any random adjustment in `[-5, 15]`, the
score is an integer in `[0, 100]` equal to 50 plus the three shape
bonuses plus the adjustment, clamped to `[0, 100]`; and at the
specified test vector (adjustment 5, title length 11, description
length 60, non-empty `doc_hash`) it is exactly 100. -/
theorem scorer_range_and_test_vector :
    (∀ (randadj : Int) (title description doc_hash : String),
        -5 ≤ randadj → randadj ≤ 15 →
        0 ≤ verify_patent_authenticity randadj title description doc_hash ∧
        verify_patent_authenticity randadj title description doc_hash ≤ 100 ∧
        verify_patent_authenticity randadj title description doc_hash =
          min 100 (max 0 ((50 : Int) +
            (if 10 < title.length then 10 else 0) +
            (if 50 < description.length then 15 else 0) +
            (if doc_hash ≠ "" then 20 else 0) + randadj))) ∧
    (∀ (randadj : Int) (title description doc_hash : String),
        randadj = 5 → title.length = 11 → description.length = 60 → doc_hash ≠ "" →
        verify_patent_authenticity randadj title description doc_hash = 100) := by
  constructor
  · intro r t d dh hr1 hr2
    simp only [verify_patent_authenticity, min_def, max_def]
    split_ifs <;> omega
  · intro r t d dh hr ht hd hdh
    subst hr
    simp only [verify_patent_authenticity, ht, hd, min_def, max_def]
    split_ifs <;> omega

/-- A description of exactly sixty characters. -/
def desc60 : String := "This invention description is exactly sixty characters long."

/-- Claim C8 witness: the test vector evaluates to 100, and an empty
record with adjustment 7 stays within bounds. -/
theorem scorer_range_witness :
    verify_patent_authenticity 5 "INVENTION-A" desc60 "d41d8cd9" = 100 ∧
    0 ≤ verify_patent_authenticity 7 "T" "" "" ∧
    verify_patent_authenticity 7 "T" "" "" ≤ 100 :=
  ⟨scorer_range_and_test_vector.2 5 "INVENTION-A" desc60 "d41d8cd9" rfl (by decide)
      (by decide) (by decide),
   (scorer_range_and_test_vector.1 7 "T" "" "" (by decide) (by decide)).1,
   (scorer_range_and_test_vector.1 7 "T" "" "" (by decide) (by decide)).2.1⟩

/-- Claim C10. Since the random adjustment is at least `-5` and the shape
bonuses are non-negative on a base of 50, the lower clamp never fires:
the score always lies in `[45, 100]`. -/
theorem scorer_lower_bound :
    ∀ (randadj : Int) (title description doc_hash : String),
      -5 ≤ randadj → randadj ≤ 15 →
      45 ≤ verify_patent_authenticity randadj title description doc_hash ∧
      verify_patent_authenticity randadj title description doc_hash ≤ 100 := by
  intro r t d dh hr1 hr2
  simp only [verify_patent_authenticity, min_def, max_def]
  split_ifs <;> omega

/-- Claim C10 witness: the all-empty record at the lowest adjustment. -/
theorem scorer_lower_bound_witness :
    45 ≤ verify_patent_authenticity (-5) "" "" "" ∧
    verify_patent_authenticity (-5) "" "" "" ≤ 100 :=
  scorer_lower_bound (-5) "" "" "" (by decide) (by decide)

/-- Claim C9. Whenever `get_blockchain_stats` returns, `total_patents`
is the chain length minus one, `total_hash_power` is the sum of all
blocks' nonces, and `average_block_time` is 0 when fewer than two
non-genesis blocks exist and otherwise the arithmetic mean of the
consecutive non-genesis timestamp differences in seconds. -/
theorem blockchain_stats_correct :
    ∀ (bc : Blockchain) (stats : BlockchainStats),
      get_blockchain_stats bc = Option.some stats →
      stats.total_patents = (bc.chain.length : Int) - 1 ∧
      stats.total_hash_power = (bc.chain.map Block.nonce).sum ∧
      (bc.chain.length < 3 → stats.average_block_time = 0) ∧
      (∀ ts : List Rat,
          traverseOption (fun b => fromisoformat b.timestamp) (bc.chain.drop 1) =
            Option.some ts →
          1 < ts.length →
          stats.average_block_time =
            ((ts.zip (ts.drop 1)).map fun p => p.2 - p.1).sum /
              ((((ts.zip (ts.drop 1)).map fun p => p.2 - p.1).length : Nat) : Rat)) := by
  intro bc stats h
  simp only [get_blockchain_stats] at h
  split at h
  next hlen =>
    split at h
    next heq => exact Option.noConfusion h
    next timestamps heq =>
      have hlents : timestamps.length = (bc.chain.drop 1).length :=
        traverseOption_length _ _ _ heq
      rw [List.length_drop] at hlents
      split at h
      next hts =>
        obtain rfl := Option.some.inj h
        refine ⟨rfl, ?_, ?_, ?_⟩
        · show (bc.chain.map Block.nonce).foldl (· + ·) 0 = (bc.chain.map Block.nonce).sum
          rw [foldl_add_eq_sum, zero_add]
        · intro h3
          exact absurd hts (by omega)
        · intro ts hts' hlen'
          have hts2 : ts = timestamps := by
            rw [heq] at hts'
            exact (Option.some.inj hts').symm
          subst hts2
          show ((ts.zip (ts.drop 1)).map fun p => p.2 - p.1).foldl (· + ·) 0 /
              ((((ts.zip (ts.drop 1)).map fun p => p.2 - p.1).length : Nat) : Rat) = _
          rw [foldl_add_eq_sum, zero_add]
      next hts =>
        obtain rfl := Option.some.inj h
        refine ⟨rfl, ?_, fun _ => rfl, ?_⟩
        · show (bc.chain.map Block.nonce).foldl (· + ·) 0 = (bc.chain.map Block.nonce).sum
          rw [foldl_add_eq_sum, zero_add]
        · intro ts hts' hlen'
          have hts2 : ts = timestamps := by
            rw [heq] at hts'
            exact (Option.some.inj hts').symm
          subst hts2
          exact absurd hlen' hts
  next hlen =>
    obtain rfl := Option.some.inj h
    refine ⟨rfl, ?_, fun _ => rfl, ?_⟩
    · show (bc.chain.map Block.nonce).foldl (· + ·) 0 = (bc.chain.map Block.nonce).sum
      rw [foldl_add_eq_sum, zero_add]
    · intro ts hts' hlen'
      have hlents : ts.length = (bc.chain.drop 1).length :=
        traverseOption_length _ _ _ hts'
      rw [List.length_drop] at hlents
      exact absurd hlen' (by omega)

/-- Claim C9 witness: on the concrete three-block ledger with nonces
0, 3, 4 and non-genesis timestamps ten seconds apart, the snapshot has
2 on-chain records, proof-of-work 7 and average inter-block time 10. -/
theorem blockchain_stats_witness :
    get_blockchain_stats bcStats = Option.some statsDemo ∧
    statsDemo.total_patents = 2 ∧ statsDemo.total_hash_power = 7 ∧
    statsDemo.average_block_time = 10 := by
  have H := blockchain_stats_correct bcStats statsDemo (by rfl)
  have hts : s9ts = [((63929296800 : Nat) : Rat), ((63929296810 : Nat) : Rat)] := by rfl
  refine ⟨by rfl, ?_, ?_, ?_⟩
  · rw [H.1]
    decide
  · rw [H.2.1]
    decide
  · rw [H.2.2.2 s9ts (by rfl) (by rw [hts]; decide), hts]
    norm_num
